import Mathlib

/-!
# Verification of the crud-app item server

A shallow embedding of `src/index.js`, a single-resource CRUD HTTP server
persisting a list of items to a JSON file, together with proofs of the
specification's testable properties.

Modelling choices:
* An `Item` is the record `{id, name, description}` the server stores
  (ids are the naturals the server assigns and parses from `/items/<digits>`).
* The store file is `StoreContent`: missing, holding text that fails to
  parse as JSON (`corrupt`), or holding a well-formed item array (`valid`).
* A request body, after `parseRequestBody`, is `BodyState`: text that is not
  JSON (`malformed`, the parse rejection), a falsy/absent body (`empty`,
  the `!body` check), or an object carrying optional `name`/`description`
  string fields plus any client-supplied `id` and extra fields (ignored by
  the server).
* The pathname is pre-classified by the routing checks of the handler
  (`pathname === '/'`, `'/script.js'`, `'/items'`, the `/^\/items\/(\d+)$/`
  match, anything else).
* `fsOk` stands for the success of the asynchronous static-file reads on
  the two frontend routes (out-of-scope I/O, only its status matters).
* `handleRequest` is the request handler; `serverHandle` adds the server
  wrapper's OPTIONS preflight short-circuit.
-/

namespace CrudApp

/-- An item record as stored by the server: `id`, `name`, `description`
(src/index.js item objects). -/
structure Item where
  id : Nat
  name : String
  description : String
  deriving DecidableEq

/-- The state of the data file `items.json`. -/
inductive StoreContent where
  /-- the file does not exist -/
  | missing
  /-- the file holds text that does not parse as JSON -/
  | corrupt
  /-- the file holds a JSON array of items -/
  | valid (items : List Item)
  deriving DecidableEq

/-- Function readItems (src/index.js:34-44): ensure the data file exists
(a missing file is first written as `[]`), read and parse it; if parsing
fails, rewrite the file to `[]` and return `[]`.  Returns the parsed items
and the resulting file state. -/
def readItems : StoreContent → List Item × StoreContent
  | .missing => ([], .valid [])
  | .corrupt => ([], .valid [])
  | .valid items => (items, .valid items)

/-- Function writeItems (src/index.js:47-49): overwrite the data file with
the serialized items array. -/
def writeItems (items : List Item) : StoreContent := .valid items

/-- The reducer of `getNextId` (src/index.js:53):
`(max, item) => (item.id > max ? item.id : max)`. -/
def maxStep (mx : Nat) (it : Item) : Nat := if it.id > mx then it.id else mx

/-- Function getNextId (src/index.js:52-55): fold the reducer over the
items with initial accumulator 0, then add 1. -/
def getNextId (items : List Item) : Nat := items.foldl maxStep 0 + 1

/-- A request body that parsed as a truthy JSON value, seen through the
property accesses the handler performs: `name` is `some s` exactly when
`typeof body.name === 'string'` holds with value `s`, likewise
`description`; `clientId` and `extra` stand for an `id` field and any other
fields the client may have sent (the handler never reads them). -/
structure ReqBody where
  clientId : Option Int
  name : Option String
  description : Option String
  extra : List (String × String)
  deriving DecidableEq

/-- The outcome of `parseRequestBody` (src/index.js:68-87) as the handler
consumes it. -/
inductive BodyState where
  /-- the body text failed `JSON.parse`: the promise rejects `Invalid JSON` -/
  | malformed
  /-- no body, or a falsy JSON value: the `!body` checks fire -/
  | empty
  /-- a truthy JSON value -/
  | obj (b : ReqBody)
  deriving DecidableEq

/-- Reading of body.name by the handler (`none` when absent or not a
string, covering the typeof test at src/index.js:157 and 184). -/
def bodyName : BodyState → Option String
  | .obj b => b.name
  | _ => none

/-- Reading of body.description by the handler. -/
def bodyDescription : BodyState → Option String
  | .obj b => b.description
  | _ => none

/-- The request pathname, pre-classified by the handler's routing tests:
`'/'`, `'/script.js'`, `'/items'`, a match of `/^\/items\/(\d+)$/` with the
captured digits converted to a number, or any other path. -/
inductive ReqPath where
  | root
  | script
  | items
  | itemsId (id : Nat)
  | other (s : String)
  deriving DecidableEq

/-- The `idMatch` of src/index.js:138-140: `some id` exactly when the
pathname matched `/^\/items\/(\d+)$/`. -/
def idOf : ReqPath → Option Nat
  | .itemsId n => some n
  | _ => none

/-- The body of an HTTP response sent by the server. -/
inductive ResBody where
  /-- a JSON array of items -/
  | items (l : List Item)
  /-- a single item as JSON -/
  | item (it : Item)
  /-- a JSON object `{error: msg}` -/
  | err (msg : String)
  /-- a static frontend file served verbatim -/
  | page (file : String)
  /-- no body (the OPTIONS preflight) -/
  | empty
  deriving DecidableEq

/-- An HTTP response: status code and body. -/
structure Response where
  status : Nat
  body : ResBody
  deriving DecidableEq

/-- The JSON content type the handler requires on POST and PUT. -/
def jsonCT : Option String := some "application/json"

/-- Response of src/index.js:97. -/
def badCT : Response := ⟨415, .err "Content-Type must be application/json"⟩

/-- Response of src/index.js:158 and 185. -/
def nameError : Response := ⟨400, .err "Invalid request body: `name` is required"⟩

/-- Response of src/index.js:146, 181 and 205. -/
def notFoundItem : Response := ⟨404, .err "Item not found"⟩

/-- Response of src/index.js:215, the unmatched-route fallback. -/
def notFoundRoute : Response := ⟨404, .err "Not found"⟩

/-- Response of the catch blocks at src/index.js:170 and 196 when
`parseRequestBody` rejected (`err.message` is `'Invalid JSON'`). -/
def invalidJson : Response := ⟨400, .err "Invalid JSON"⟩

/-- The findIndex search of src/index.js:179 and 203,
`items.findIndex((i) => i.id === id)`, with `none` standing for −1. -/
def findIndexById (id : Nat) : List Item → Option Nat
  | [] => none
  | it :: rest => if it.id = id then some 0 else (findIndexById id rest).map (· + 1)

/-- The request handler, src/index.js:90-216.  Inputs: the uppercased method,
the classified pathname, the `content-type` header, the parsed body, the
static-file read outcome, and the data file state.  Output: the data file
state after the request and the response sent. -/
def handleRequest (method : String) (path : ReqPath) (contentType : Option String)
    (body : BodyState) (fsOk : Bool) (store : StoreContent) :
    StoreContent × Response :=
  -- src/index.js:96-99: only accept JSON bodies for POST and PUT
  if (method = "POST" ∨ method = "PUT") ∧ contentType ≠ jsonCT then
    (store, badCT)
  else
    -- src/index.js:102: load current items from disk
    let rd := readItems store
    let items := rd.1
    let store1 := rd.2
    -- src/index.js:105-129: static frontend files
    if method = "GET" ∧ path = .root then
      (store1, if fsOk then ⟨200, .page "index.html"⟩
               else ⟨500, .err "Failed to load index.html"⟩)
    else if method = "GET" ∧ path = .script then
      (store1, if fsOk then ⟨200, .page "script.js"⟩
               else ⟨500, .err "Failed to load script.js"⟩)
    -- src/index.js:132-135: GET /items
    else if method = "GET" ∧ path = .items then
      (store1, ⟨200, .items items⟩)
    else
      match idOf path with
      | some id =>
        -- src/index.js:143-151: GET /items/:id
        if method = "GET" then
          match items.find? (fun i => i.id == id) with
          | none => (store1, notFoundItem)
          | some it => (store1, ⟨200, .item it⟩)
        -- src/index.js:176-199: PUT /items/:id
        else if method = "PUT" then
          match body with
          | .malformed => (store1, invalidJson)
          | b =>
            match findIndexById id items with
            | none => (store1, notFoundItem)
            | some idx =>
              match bodyName b with
              | none => (store1, nameError)
              | some nm =>
                match items.get? idx with
                | none => (store1, notFoundItem)  -- unreachable: idx is in range
                | some old =>
                  let upd : Item := ⟨old.id, nm, (bodyDescription b).getD ""⟩
                  (writeItems (items.set idx upd), ⟨200, .item upd⟩)
        -- src/index.js:202-212: DELETE /items/:id
        else if method = "DELETE" then
          match findIndexById id items with
          | none => (store1, notFoundItem)
          | some idx =>
            match items.get? idx with
            | none => (store1, notFoundItem)  -- unreachable: idx is in range
            | some deleted =>
              (writeItems (items.eraseIdx idx), ⟨200, .item deleted⟩)
        else (store1, notFoundRoute)
      | none =>
        -- src/index.js:154-173: POST /items
        if method = "POST" ∧ path = .items then
          match body with
          | .malformed => (store1, invalidJson)
          | .empty => (store1, nameError)
          | .obj b =>
            match b.name with
            | none => (store1, nameError)
            | some nm =>
              let newItem : Item := ⟨getNextId items, nm, b.description.getD ""⟩
              (writeItems (items ++ [newItem]), ⟨201, .item newItem⟩)
        else (store1, notFoundRoute)

/-- The server callback (src/index.js:220-232): answer OPTIONS preflight
with 204 and no body, delegate everything else to `handleRequest`. -/
def serverHandle (method : String) (path : ReqPath) (contentType : Option String)
    (body : BodyState) (fsOk : Bool) (store : StoreContent) :
    StoreContent × Response :=
  if method = "OPTIONS" then (store, ⟨204, .empty⟩)
  else handleRequest method path contentType body fsOk store

/-- The collection the persistence layer yields for a file state: what
`readItems` would return (a missing or corrupt file reads as empty). -/
def logicalColl : StoreContent → List Item
  | .valid items => items
  | _ => []

/-- The id values present in a collection. -/
def idsOf (items : List Item) : List Nat := items.map Item.id

/-- Whether (method, path) matches one of the five CRUD operations
LIST, GET_ONE, CREATE, UPDATE, DELETE of the specification. -/
def matchesFive (method : String) (path : ReqPath) : Bool :=
  (method == "GET" && (path == .items || (idOf path).isSome)) ||
  (method == "POST" && path == .items) ||
  ((method == "PUT" || method == "DELETE") && (idOf path).isSome)

/-- Whether (method, path) is one of the two static frontend routes. -/
def isStaticRoute (method : String) (path : ReqPath) : Bool :=
  method == "GET" && (path == .root || path == .script)

/-- The collections a successful mutation can write: an append of the
freshly numbered item, an in-place replacement keeping the id found there,
or the removal of one index. -/
def mutationShape (L : List Item) (s : StoreContent) : Prop :=
  (∃ it, it.id = getNextId L ∧ s = .valid (L ++ [it])) ∨
  (∃ idx old it, L.get? idx = some old ∧ it.id = old.id ∧ s = .valid (L.set idx it)) ∨
  (∃ idx, s = .valid (L.eraseIdx idx))

/-! ## Lemmas about the id reducer and `getNextId` -/

lemma maxStep_le (mx : Nat) (it : Item) : mx ≤ maxStep mx it := by
  unfold maxStep; split <;> omega

lemma maxStep_ge_id (mx : Nat) (it : Item) : it.id ≤ maxStep mx it := by
  unfold maxStep; split <;> omega

lemma le_foldl_maxStep : ∀ (l : List Item) (a : Nat), a ≤ l.foldl maxStep a
  | [], a => le_refl a
  | it :: rest, a => le_trans (maxStep_le a it) (le_foldl_maxStep rest _)

lemma id_le_foldl_maxStep : ∀ (l : List Item) (a : Nat) (it : Item),
    it ∈ l → it.id ≤ l.foldl maxStep a
  | [], _, _, h => absurd h (List.not_mem_nil _)
  | hd :: rest, a, it, h => by
    rcases List.mem_cons.mp h with h1 | h2
    · subst h1
      exact le_trans (maxStep_ge_id a it) (le_foldl_maxStep rest _)
    · exact id_le_foldl_maxStep rest _ it h2

lemma foldl_maxStep_eq_or_mem : ∀ (l : List Item) (a : Nat),
    l.foldl maxStep a = a ∨ ∃ it ∈ l, l.foldl maxStep a = it.id
  | [], _ => Or.inl rfl
  | hd :: rest, a => by
    have step : (hd :: rest).foldl maxStep a = rest.foldl maxStep (maxStep a hd) := rfl
    rcases foldl_maxStep_eq_or_mem rest (maxStep a hd) with h | ⟨it, hm, he⟩
    · rw [step, h]
      unfold maxStep
      split
      · exact Or.inr ⟨hd, List.mem_cons_self _ _, rfl⟩
      · exact Or.inl rfl
    · exact Or.inr ⟨it, List.mem_cons_of_mem _ hm, by rw [step, he]⟩

lemma lt_getNextId (l : List Item) (it : Item) (h : it ∈ l) : it.id < getNextId l :=
  Nat.lt_succ_of_le (id_le_foldl_maxStep l 0 it h)

lemma getNextId_not_mem (l : List Item) : getNextId l ∉ idsOf l := by
  intro hmem
  rcases List.mem_map.mp hmem with ⟨it, hit, hid⟩
  have := lt_getNextId l it hit
  omega

lemma getNextId_eq_succ_max (l : List Item) (m : Nat)
    (hm : m ∈ idsOf l) (hub : ∀ x ∈ idsOf l, x ≤ m) : getNextId l = m + 1 := by
  rcases List.mem_map.mp hm with ⟨it, hit, hid⟩
  have h1 : m ≤ l.foldl maxStep 0 := hid ▸ id_le_foldl_maxStep l 0 it hit
  have h2 : l.foldl maxStep 0 ≤ m := by
    rcases foldl_maxStep_eq_or_mem l 0 with h | ⟨it2, hm2, he⟩
    · omega
    · rw [he]
      exact hub _ (List.mem_map_of_mem _ hm2)
  unfold getNextId
  omega

/-! ## Lemmas about `findIndexById` and list surgery -/

lemma findIndexById_some : ∀ (l : List Item) (id idx : Nat),
    findIndexById id l = some idx → ∃ it, l.get? idx = some it ∧ it.id = id
  | [], id, idx, h => by simp [findIndexById] at h
  | hd :: rest, id, idx, h => by
    by_cases hh : hd.id = id
    · simp [findIndexById, hh] at h
      exact h ▸ ⟨hd, rfl, hh⟩
    · simp [findIndexById, hh] at h
      obtain ⟨j, hj, hji⟩ := h
      obtain ⟨it, hget, hid⟩ := findIndexById_some rest id j hj
      subst hji
      exact ⟨it, hget, hid⟩

lemma findIndexById_none : ∀ (l : List Item) (id : Nat),
    findIndexById id l = none ↔ ∀ it ∈ l, it.id ≠ id
  | [], id => by simp [findIndexById]
  | hd :: rest, id => by
    by_cases hh : hd.id = id
    · simp [findIndexById, hh]
    · simp [findIndexById, hh, findIndexById_none rest id]

lemma findIndexById_set : ∀ (l : List Item) (id idx : Nat) (upd : Item),
    findIndexById id l = some idx → upd.id = id →
    findIndexById id (l.set idx upd) = some idx
  | [], id, idx, upd, h, _ => by simp [findIndexById] at h
  | hd :: rest, id, idx, upd, h, hupd => by
    by_cases hh : hd.id = id
    · simp [findIndexById, hh] at h
      subst h
      simp [List.set, findIndexById, hupd]
    · simp [findIndexById, hh] at h
      obtain ⟨j, hj, hji⟩ := h
      subst hji
      have ih := findIndexById_set rest id j upd hj hupd
      simp [List.set, findIndexById, hh, ih]

lemma idsOf_set : ∀ (l : List Item) (idx : Nat) (old upd : Item),
    l.get? idx = some old → upd.id = old.id →
    idsOf (l.set idx upd) = idsOf l
  | [], _, _, _, h, _ => by simp at h
  | hd :: rest, 0, old, upd, h, hupd => by
    simp at h
    subst h
    simp [idsOf, hupd]
  | hd :: rest, idx + 1, old, upd, h, hupd => by
    simp only [List.get?] at h
    have ih := idsOf_set rest idx old upd h hupd
    simp only [idsOf, List.set, List.map_cons] at ih ⊢
    rw [ih]

lemma get?_set_self (l : List Item) (idx : Nat) (a : Item) (h : idx < l.length) :
    (l.set idx a).get? idx = some a := by
  simp [List.get?_eq_getElem?, List.getElem?_set_eq_of_lt, h]

lemma find?_append_singleton (l : List Item) (x : Item) (n : Nat)
    (h : ∀ y ∈ l, y.id ≠ n) (hx : x.id = n) :
    List.find? (fun i => i.id == n) (l ++ [x]) = some x := by
  rw [List.find?_append]
  have h1 : List.find? (fun i => i.id == n) l = none := by
    rw [List.find?_eq_none]
    intro y hy
    simpa using h y hy
  rw [h1]
  simp [List.find?, hx]

lemma idsOf_append_singleton (l : List Item) (x : Item) :
    idsOf (l ++ [x]) = idsOf l ++ [x.id] := by
  simp [idsOf]

lemma idsOf_eraseIdx_nodup (l : List Item) (idx : Nat) (h : (idsOf l).Nodup) :
    (idsOf (l.eraseIdx idx)).Nodup :=
  h.sublist ((List.eraseIdx_sublist l idx).map Item.id)

lemma readItems_eq (s : StoreContent) :
    readItems s = (logicalColl s, .valid (logicalColl s)) := by
  cases s <;> rfl

lemma logicalColl_valid (l : List Item) : logicalColl (.valid l) = l := rfl

/-! ## A shape lemma covering every branch of the handler -/

/-- Every branch of the handler leaves the store untouched, merely re-writes
the collection it read, or writes a mutated collection while answering with
a success status (200 or 201). -/
lemma handleRequest_master (m : String) (p : ReqPath) (ct : Option String)
    (b : BodyState) (f : Bool) (s : StoreContent) :
    (handleRequest m p ct b f s).1 = s ∨
    (handleRequest m p ct b f s).1 = .valid (logicalColl s) ∨
    ((handleRequest m p ct b f s).2.status ≤ 201 ∧
      mutationShape (logicalColl s) (handleRequest m p ct b f s).1) := by
  by_cases h415 : (m = "POST" ∨ m = "PUT") ∧ ct ≠ jsonCT
  · simp [handleRequest, h415]
  · simp only [handleRequest, readItems_eq, if_neg h415]
    repeat' split
    all_goals try exact Or.inr (Or.inl rfl)
    -- PUT success: in-place replacement preserving the id found there
    · rename_i x2 idx heq2 x1 nm heq1 x0 old heq0
      exact Or.inr (Or.inr ⟨Nat.le_succ 200, Or.inr (Or.inl
        ⟨idx, old, ⟨old.id, nm, (bodyDescription b).getD ""⟩, heq0, rfl, rfl⟩)⟩)
    -- DELETE success: removal of one index
    · rename_i x1 idx heq1 x0 old heq0
      exact Or.inr (Or.inr ⟨Nat.le_succ 200, Or.inr (Or.inr ⟨idx, rfl⟩)⟩)
    -- POST success: append of the freshly numbered item
    · rename_i b x nm heq
      exact Or.inr (Or.inr ⟨Nat.le_refl 201,
        Or.inl ⟨⟨getNextId (logicalColl s), nm, b.description.getD ""⟩, rfl, rfl⟩⟩)

/-! ## Route characterizations of the handler on well-formed stores -/

lemma handleRequest_post_obj (b : ReqBody) (nm : String) (f : Bool) (l : List Item)
    (hname : b.name = some nm) :
    handleRequest "POST" .items jsonCT (.obj b) f (.valid l)
      = (.valid (l ++ [⟨getNextId l, nm, b.description.getD ""⟩]),
         ⟨201, .item ⟨getNextId l, nm, b.description.getD ""⟩⟩) := by
  simp [handleRequest, idOf, readItems, writeItems, hname]

lemma handleRequest_post_noname (b : ReqBody) (f : Bool) (l : List Item)
    (hname : b.name = none) :
    handleRequest "POST" .items jsonCT (.obj b) f (.valid l) = (.valid l, nameError) := by
  simp [handleRequest, idOf, readItems, hname]

lemma handleRequest_get_found (id : Nat) (ct : Option String) (b : BodyState)
    (f : Bool) (l : List Item) (it : Item)
    (hfind : l.find? (fun i => i.id == id) = some it) :
    handleRequest "GET" (.itemsId id) ct b f (.valid l) = (.valid l, ⟨200, .item it⟩) := by
  simp [handleRequest, idOf, readItems, hfind]

lemma handleRequest_put_found (id idx : Nat) (b : BodyState) (nm : String)
    (old : Item) (f : Bool) (l : List Item)
    (hname : bodyName b = some nm)
    (hfind : findIndexById id l = some idx) (hget : l.get? idx = some old) :
    handleRequest "PUT" (.itemsId id) jsonCT b f (.valid l)
      = (.valid (l.set idx ⟨old.id, nm, (bodyDescription b).getD ""⟩),
         ⟨200, .item ⟨old.id, nm, (bodyDescription b).getD ""⟩⟩) := by
  cases b with
  | malformed => simp [bodyName] at hname
  | empty => simp [bodyName] at hname
  | obj b' =>
    simp only [bodyName] at hname
    have hget2 : l[idx]? = some old := by rw [← List.get?_eq_getElem?]; exact hget
    simp [handleRequest, idOf, readItems, writeItems, bodyName, bodyDescription,
      hname, hfind, hget2]

lemma handleRequest_put_missing (id : Nat) (b : BodyState) (f : Bool) (l : List Item)
    (hmal : b ≠ .malformed) (hfind : findIndexById id l = none) :
    handleRequest "PUT" (.itemsId id) jsonCT b f (.valid l) = (.valid l, notFoundItem) := by
  cases b with
  | malformed => exact absurd rfl hmal
  | empty => simp [handleRequest, idOf, readItems, hfind]
  | obj b' => simp [handleRequest, idOf, readItems, hfind]

lemma handleRequest_put_noname (id idx : Nat) (b : BodyState) (f : Bool) (l : List Item)
    (hmal : b ≠ .malformed) (hname : bodyName b = none)
    (hfind : findIndexById id l = some idx) :
    handleRequest "PUT" (.itemsId id) jsonCT b f (.valid l) = (.valid l, nameError) := by
  cases b with
  | malformed => exact absurd rfl hmal
  | empty => simp [handleRequest, idOf, readItems, bodyName, hfind]
  | obj b' =>
    simp only [bodyName] at hname
    simp [handleRequest, idOf, readItems, bodyName, hfind, hname]

lemma handleRequest_put_malformed (id : Nat) (f : Bool) (l : List Item) :
    handleRequest "PUT" (.itemsId id) jsonCT .malformed f (.valid l)
      = (.valid l, invalidJson) := rfl

lemma handleRequest_delete_missing (id : Nat) (ct : Option String) (b : BodyState)
    (f : Bool) (l : List Item) (hfind : findIndexById id l = none) :
    handleRequest "DELETE" (.itemsId id) ct b f (.valid l) = (.valid l, notFoundItem) := by
  simp [handleRequest, idOf, readItems, hfind]

lemma handleRequest_on_logical (m : String) (p : ReqPath) (ct : Option String)
    (b : BodyState) (f : Bool) (s : StoreContent)
    (h : ¬((m = "POST" ∨ m = "PUT") ∧ ct ≠ jsonCT)) :
    handleRequest m p ct b f s
      = handleRequest m p ct b f (.valid (logicalColl s)) := by
  simp only [handleRequest, if_neg h, readItems_eq, logicalColl_valid]

/-! ## The claims -/

/-- C1: For every valid CREATE request (POST /items with a string `name`),
the id of the returned and stored Item equals 1 + the maximum id present in
the collection before the call, or 1 if the collection was empty. -/
theorem create_assigns_max_plus_one (l : List Item) (b : ReqBody) (nm : String)
    (f : Bool) (hname : b.name = some nm) :
    ∃ it : Item,
      handleRequest "POST" .items jsonCT (.obj b) f (.valid l)
        = (.valid (l ++ [it]), ⟨201, .item it⟩) ∧
      (l = [] → it.id = 1) ∧
      (∀ m, m ∈ idsOf l → (∀ x ∈ idsOf l, x ≤ m) → it.id = m + 1) := by
  refine ⟨⟨getNextId l, nm, b.description.getD ""⟩, handleRequest_post_obj b nm f l hname,
    ?_, ?_⟩
  · intro hl
    subst hl
    rfl
  · intro m hm hub
    exact getNextId_eq_succ_max l m hm hub

theorem create_assigns_max_plus_one_witness :
    (⟨none, some "x", none, []⟩ : ReqBody).name = some "x" ∧
    ∃ it : Item,
      handleRequest "POST" .items jsonCT (.obj ⟨none, some "x", none, []⟩) true
          (.valid [⟨2, "a", "b"⟩])
        = (.valid ([⟨2, "a", "b"⟩] ++ [it]), ⟨201, .item it⟩) ∧
      (([⟨2, "a", "b"⟩] : List Item) = [] → it.id = 1) ∧
      (∀ m, m ∈ idsOf [⟨2, "a", "b"⟩] → (∀ x ∈ idsOf [⟨2, "a", "b"⟩], x ≤ m) → it.id = m + 1) :=
  ⟨rfl, create_assigns_max_plus_one [⟨2, "a", "b"⟩] ⟨none, some "x", none, []⟩ "x" true rfl⟩

/-- C2: Every request that produces an error response (status 400 or above)
leaves the persisted collection unchanged, and a store already holding a
valid collection is left exactly as it was; in particular DELETE of a
non-existent id answers 404 without modifying the collection, and CREATE
with a missing name answers 400 without altering the persisted
collection. -/
theorem error_leaves_collection_unchanged (m : String) (p : ReqPath)
    (ct : Option String) (b : BodyState) (f : Bool) (s : StoreContent)
    (h : 400 ≤ (serverHandle m p ct b f s).2.status) :
    (logicalColl (serverHandle m p ct b f s).1 = logicalColl s ∧
      ∀ l, s = .valid l → (serverHandle m p ct b f s).1 = .valid l) ∧
    (∀ id l2, (∀ it ∈ l2, it.id ≠ id) →
      handleRequest "DELETE" (.itemsId id) ct b f (.valid l2) = (.valid l2, notFoundItem)) ∧
    (∀ (b0 : ReqBody) l2, b0.name = none →
      handleRequest "POST" .items jsonCT (.obj b0) f (.valid l2) = (.valid l2, nameError)) := by
  refine ⟨?_, ?_, ?_⟩
  · by_cases hopt : m = "OPTIONS"
    · exfalso
      simp only [serverHandle, if_pos hopt] at h
      exact absurd h (by decide)
    · simp only [serverHandle, if_neg hopt] at h ⊢
      rcases handleRequest_master m p ct b f s with h1 | h1 | ⟨h2, _⟩
      · exact ⟨by rw [h1], fun l hl => by rw [h1]; exact hl⟩
      · refine ⟨by rw [h1]; rfl, fun l hl => ?_⟩
        rw [h1]
        subst hl
        rfl
      · omega
  · intro id l2 habs
    exact handleRequest_delete_missing id ct b f l2 ((findIndexById_none l2 id).mpr habs)
  · intro b0 l2 hname
    exact handleRequest_post_noname b0 f l2 hname

theorem error_leaves_collection_unchanged_witness :
    400 ≤ (serverHandle "DELETE" (.itemsId 9) none .empty true
      (.valid [⟨1, "a", "d"⟩])).2.status ∧
    ((logicalColl (serverHandle "DELETE" (.itemsId 9) none .empty true
        (.valid [⟨1, "a", "d"⟩])).1 = logicalColl (.valid [⟨1, "a", "d"⟩]) ∧
      ∀ l, (.valid [⟨1, "a", "d"⟩] : StoreContent) = .valid l →
        (serverHandle "DELETE" (.itemsId 9) none .empty true
          (.valid [⟨1, "a", "d"⟩])).1 = .valid l) ∧
     (∀ id l2, (∀ it ∈ l2, it.id ≠ id) →
       handleRequest "DELETE" (.itemsId id) none .empty true (.valid l2)
         = (.valid l2, notFoundItem)) ∧
     (∀ (b0 : ReqBody) l2, b0.name = none →
       handleRequest "POST" .items jsonCT (.obj b0) true (.valid l2)
         = (.valid l2, nameError))) :=
  ⟨by decide, error_leaves_collection_unchanged "DELETE" (.itemsId 9) none .empty true
    (.valid [⟨1, "a", "d"⟩]) (by decide)⟩

/-- C3: If the store file contains text that does not parse as JSON, the
next GET /items returns the empty collection with status 200 (no error
reported to the caller) and rewrites the store file to an empty
collection. -/
theorem corrupt_store_get_items (ct : Option String) (b : BodyState) (f : Bool) :
    handleRequest "GET" .items ct b f .corrupt = (.valid [], ⟨200, .items []⟩) := rfl

/-- C4: Starting from a collection with unique ids, every request (hence
every CREATE, UPDATE, DELETE) preserves uniqueness of the ids; moreover a
successful UPDATE (a PUT answered 200 with an Item) keeps the id of the
targeted Item. -/
theorem ops_preserve_unique_ids (m : String) (p : ReqPath) (ct : Option String)
    (b : BodyState) (f : Bool) (l : List Item) (h : (idsOf l).Nodup) :
    (idsOf (logicalColl (handleRequest m p ct b f (.valid l)).1)).Nodup ∧
    ∀ id it, (handleRequest "PUT" (.itemsId id) ct b f (.valid l)).2 = ⟨200, .item it⟩ →
      it.id = id := by
  constructor
  · rcases handleRequest_master m p ct b f (.valid l) with h1 | h1 | ⟨_, hshape⟩
    · rw [h1]; exact h
    · rw [h1]; exact h
    · rcases hshape with ⟨it, hid, heq⟩ | ⟨idx, old, it, hget, hid, heq⟩ | ⟨idx, heq⟩
      · rw [heq]
        have hnotin : it.id ∉ idsOf l := hid ▸ getNextId_not_mem l
        have hred : logicalColl (.valid (logicalColl (.valid l) ++ [it])) = l ++ [it] := rfl
        rw [hred, idsOf_append_singleton]
        exact List.Nodup.append h (List.nodup_singleton _)
          (fun a ha hb => hnotin ((List.mem_singleton.mp hb) ▸ ha))
      · rw [heq]
        have hred : logicalColl (.valid ((logicalColl (.valid l)).set idx it))
            = l.set idx it := rfl
        rw [hred, idsOf_set l idx old it hget hid]
        exact h
      · rw [heq]
        exact idsOf_eraseIdx_nodup l idx h
  · intro id it hresp
    by_cases hct : ct = jsonCT
    · subst hct
      cases b with
      | malformed =>
        rw [handleRequest_put_malformed] at hresp
        simp [invalidJson] at hresp
      | empty =>
        rcases hfind : findIndexById id l with _ | idx
        · rw [handleRequest_put_missing id .empty f l (by intro hx; cases hx) hfind] at hresp
          simp [notFoundItem] at hresp
        · rw [handleRequest_put_noname id idx .empty f l (by intro hx; cases hx) rfl hfind]
            at hresp
          simp [nameError] at hresp
      | obj b2 =>
        rcases hfind : findIndexById id l with _ | idx
        · rw [handleRequest_put_missing id (.obj b2) f l (by intro hx; cases hx) hfind]
            at hresp
          simp [notFoundItem] at hresp
        · rcases hname : b2.name with _ | nm
          · rw [handleRequest_put_noname id idx (.obj b2) f l (by intro hx; cases hx)
              (by simpa [bodyName] using hname) hfind] at hresp
            simp [nameError] at hresp
          · obtain ⟨old, hget, hid⟩ := findIndexById_some l id idx hfind
            rw [handleRequest_put_found id idx (.obj b2) nm old f l
              (by simpa [bodyName] using hname) hfind hget] at hresp
            have heqit : (⟨old.id, nm, (bodyDescription (.obj b2)).getD ""⟩ : Item) = it := by
              have := congrArg (fun r => r.2) hresp
              simpa using this
            rw [← heqit]
            exact hid
    · have hcond : ("PUT" = "POST" ∨ "PUT" = "PUT") ∧ ct ≠ jsonCT := ⟨Or.inr rfl, hct⟩
      rw [show handleRequest "PUT" (.itemsId id) ct b f (.valid l)
        = (.valid l, badCT) from by simp [handleRequest, hcond]] at hresp
      simp [badCT] at hresp

theorem ops_preserve_unique_ids_witness :
    (idsOf [⟨1, "a", ""⟩, ⟨2, "b", ""⟩]).Nodup ∧
    ((idsOf (logicalColl (handleRequest "DELETE" (.itemsId 1) none .empty true
        (.valid [⟨1, "a", ""⟩, ⟨2, "b", ""⟩])).1)).Nodup ∧
      ∀ id it, (handleRequest "PUT" (.itemsId id) none .empty true
          (.valid [⟨1, "a", ""⟩, ⟨2, "b", ""⟩])).2 = ⟨200, .item it⟩ →
        it.id = id) :=
  ⟨by decide, ops_preserve_unique_ids "DELETE" (.itemsId 1) none .empty true
    [⟨1, "a", ""⟩, ⟨2, "b", ""⟩] (by decide)⟩

/-- C5: Round-trip: for every valid CREATE request, immediately fetching
the returned id via GET /items/{id} succeeds with status 200 and returns an
Item whose name and description equal those of the created Item and whose
id is the assigned id. -/
theorem create_then_get_roundtrip (l : List Item) (b : ReqBody) (nm : String)
    (f f2 : Bool) (ct2 : Option String) (b2 : BodyState)
    (hname : b.name = some nm) :
    ∃ (it : Item) (s1 : StoreContent),
      handleRequest "POST" .items jsonCT (.obj b) f (.valid l) = (s1, ⟨201, .item it⟩) ∧
      handleRequest "GET" (.itemsId it.id) ct2 b2 f2 s1 = (s1, ⟨200, .item it⟩) ∧
      it.name = nm ∧ it.description = b.description.getD "" := by
  refine ⟨⟨getNextId l, nm, b.description.getD ""⟩,
    .valid (l ++ [⟨getNextId l, nm, b.description.getD ""⟩]),
    handleRequest_post_obj b nm f l hname, ?_, rfl, rfl⟩
  apply handleRequest_get_found
  apply find?_append_singleton
  · intro y hy
    exact Nat.ne_of_lt (lt_getNextId l y hy)
  · rfl

theorem create_then_get_roundtrip_witness :
    (⟨some 99, some "x", some "d", [("junk", "v")]⟩ : ReqBody).name = some "x" ∧
    ∃ (it : Item) (s1 : StoreContent),
      handleRequest "POST" .items jsonCT (.obj ⟨some 99, some "x", some "d", [("junk", "v")]⟩)
          true (.valid [⟨3, "a", "b"⟩]) = (s1, ⟨201, .item it⟩) ∧
      handleRequest "GET" (.itemsId it.id) none .empty false s1 = (s1, ⟨200, .item it⟩) ∧
      it.name = "x" ∧
      it.description
        = (⟨some 99, some "x", some "d", [("junk", "v")]⟩ : ReqBody).description.getD "" :=
  ⟨rfl, create_then_get_roundtrip [⟨3, "a", "b"⟩] ⟨some 99, some "x", some "d", [("junk", "v")]⟩
    "x" true false none .empty rfl⟩

/-- C6 counterexample: a PUT to /items/5 with JSON content type on an empty
collection (so no Item has id 5) but a malformed body is answered 400
Invalid JSON, not 404. -/
theorem put_absent_id_counterexample :
    (∀ it ∈ ([] : List Item), it.id ≠ 5) ∧
    (handleRequest "PUT" (.itemsId 5) jsonCT .malformed true (.valid [])).2 = invalidJson ∧
    (handleRequest "PUT" (.itemsId 5) jsonCT .malformed true (.valid [])).2 ≠ notFoundItem := by
  refine ⟨by simp, rfl, by decide⟩

/-- C6 amended: for every PUT to /items/{id} with JSON content type where no
Item has that id, the operation fails 404 provided the body is not malformed
JSON; a body that fails JSON parsing is answered 400 Invalid JSON first,
even when the id is absent. -/
theorem put_absent_id_404 (id : Nat) (b : BodyState) (f : Bool) (l : List Item)
    (habs : ∀ it ∈ l, it.id ≠ id) :
    (b ≠ .malformed →
      handleRequest "PUT" (.itemsId id) jsonCT b f (.valid l) = (.valid l, notFoundItem)) ∧
    handleRequest "PUT" (.itemsId id) jsonCT .malformed f (.valid l)
      = (.valid l, invalidJson) :=
  ⟨fun hmal => handleRequest_put_missing id b f l hmal ((findIndexById_none l id).mpr habs),
   handleRequest_put_malformed id f l⟩

theorem put_absent_id_404_witness :
    (∀ it ∈ ([] : List Item), it.id ≠ 5) ∧
    ((BodyState.empty ≠ .malformed →
      handleRequest "PUT" (.itemsId 5) jsonCT .empty true (.valid [])
        = (.valid [], notFoundItem)) ∧
     handleRequest "PUT" (.itemsId 5) jsonCT .malformed true (.valid [])
       = (.valid [], invalidJson)) :=
  ⟨by simp, put_absent_id_404 5 .empty true [] (by simp)⟩

/-- C7 counterexample: a CREATE whose `name` is the empty string succeeds
and stores an Item with an empty name (validation is a type check only). -/
theorem create_empty_name_counterexample :
    handleRequest "POST" .items jsonCT (.obj ⟨none, some "", none, []⟩) true (.valid [])
      = (.valid [⟨1, "", ""⟩], ⟨201, .item ⟨1, "", ""⟩⟩) ∧
    (⟨1, "", ""⟩ : Item).name = "" := ⟨rfl, rfl⟩

/-- C7 amended: every Item stored by a successful CREATE or UPDATE has as
its name exactly the string the request supplied in `name` — which may be
the empty string, since the validation checks the type of `name`, not its
content. -/
theorem stored_name_is_request_name (l : List Item) (b : ReqBody) (nm : String)
    (f : Bool) (id : Nat) (hname : b.name = some nm) :
    (∃ it, handleRequest "POST" .items jsonCT (.obj b) f (.valid l)
        = (.valid (l ++ [it]), ⟨201, .item it⟩) ∧ it.name = nm) ∧
    (∀ s2 it, handleRequest "PUT" (.itemsId id) jsonCT (.obj b) f (.valid l)
        = (s2, ⟨200, .item it⟩) → it.name = nm) := by
  constructor
  · exact ⟨_, handleRequest_post_obj b nm f l hname, rfl⟩
  · intro s2 it hresp
    rcases hfind : findIndexById id l with _ | idx
    · rw [handleRequest_put_missing id (.obj b) f l (by intro hx; cases hx) hfind] at hresp
      simp [notFoundItem] at hresp
    · obtain ⟨old, hget, hid⟩ := findIndexById_some l id idx hfind
      rw [handleRequest_put_found id idx (.obj b) nm old f l
        (by simpa [bodyName] using hname) hfind hget] at hresp
      have heqit : (⟨old.id, nm, (bodyDescription (.obj b)).getD ""⟩ : Item) = it := by
        have := congrArg (fun r => r.2) hresp
        simpa using this
      rw [← heqit]

theorem stored_name_is_request_name_witness :
    (⟨none, some "", none, []⟩ : ReqBody).name = some "" ∧
    ((∃ it, handleRequest "POST" .items jsonCT (.obj ⟨none, some "", none, []⟩) true
          (.valid [⟨1, "a", "d"⟩])
        = (.valid ([⟨1, "a", "d"⟩] ++ [it]), ⟨201, .item it⟩) ∧ it.name = "") ∧
     ∀ s2 it, handleRequest "PUT" (.itemsId 1) jsonCT (.obj ⟨none, some "", none, []⟩) true
          (.valid [⟨1, "a", "d"⟩])
        = (s2, ⟨200, .item it⟩) → it.name = "") :=
  ⟨rfl, stored_name_is_request_name [⟨1, "a", "d"⟩] ⟨none, some "", none, []⟩ "" true 1 rfl⟩

/-- C8 counterexample: (POST, /x) matches none of the five operations, yet
with a non-JSON content type the response is 415, not 404 "Not found" — the
content-type precheck fires before routing, so the 404 does not hold
regardless of the headers. -/
theorem unmatched_route_counterexample :
    matchesFive "POST" (.other "/x") = false ∧
    (serverHandle "POST" (.other "/x") none .empty true (.valid [])).2 = badCT ∧
    (serverHandle "POST" (.other "/x") none .empty true (.valid [])).2 ≠ notFoundRoute := by
  refine ⟨rfl, rfl, by decide⟩

/-- C8 amended: a request that is not an OPTIONS preflight, not one of the
two static frontend routes, whose (method, path) matches none of the five
operations, and which passes the POST/PUT content-type precheck, is
answered 404 with the generic "Not found" message, regardless of its body
or remaining headers; a POST or PUT without JSON content type is instead
answered 415 whatever its path. -/
theorem unmatched_route_404 (m : String) (p : ReqPath) (ct : Option String)
    (b : BodyState) (f : Bool) (s : StoreContent)
    (hopt : m ≠ "OPTIONS") (hfive : matchesFive m p = false)
    (hstatic : isStaticRoute m p = false)
    (hct : ¬((m = "POST" ∨ m = "PUT") ∧ ct ≠ jsonCT)) :
    (serverHandle m p ct b f s).2 = notFoundRoute ∧
    ∀ (m2 : String) (p2 : ReqPath) (ct2 : Option String) (b2 : BodyState)
      (f2 : Bool) (s2 : StoreContent), (m2 = "POST" ∨ m2 = "PUT") → ct2 ≠ jsonCT →
      (serverHandle m2 p2 ct2 b2 f2 s2).2 = badCT := by
  constructor
  · simp only [serverHandle, if_neg hopt]
    simp only [matchesFive, isStaticRoute, Bool.or_eq_false_iff,
      Bool.and_eq_false_iff] at hfive hstatic
    simp only [handleRequest, if_neg hct, readItems_eq]
    repeat' split
    all_goals simp_all [idOf]
  · intro m2 p2 ct2 b2 f2 s2 hm2 hct2
    have hcond : (m2 = "POST" ∨ m2 = "PUT") ∧ ct2 ≠ jsonCT := ⟨hm2, hct2⟩
    have hnopt : m2 ≠ "OPTIONS" := by
      rcases hm2 with rfl | rfl <;> decide
    simp [serverHandle, if_neg hnopt, handleRequest, hcond]

theorem unmatched_route_404_witness :
    ("PATCH" ≠ "OPTIONS" ∧ matchesFive "PATCH" (.other "/x") = false ∧
      isStaticRoute "PATCH" (.other "/x") = false ∧
      ¬(("PATCH" = "POST" ∨ "PATCH" = "PUT") ∧ (none : Option String) ≠ jsonCT)) ∧
    ((serverHandle "PATCH" (.other "/x") none .empty true (.valid [])).2 = notFoundRoute ∧
     ∀ (m2 : String) (p2 : ReqPath) (ct2 : Option String) (b2 : BodyState)
       (f2 : Bool) (s2 : StoreContent), (m2 = "POST" ∨ m2 = "PUT") → ct2 ≠ jsonCT →
       (serverHandle m2 p2 ct2 b2 f2 s2).2 = badCT) :=
  ⟨⟨by decide, rfl, rfl, by decide⟩,
   unmatched_route_404 "PATCH" (.other "/x") none .empty true (.valid [])
     (by decide) rfl rfl (by decide)⟩

/-- C9: Idempotence of update: applying the same UPDATE request (same id,
same headers and body) twice in succession yields the same persisted store
and the same response as applying it once. -/
theorem update_idempotent (p : ReqPath) (ct : Option String) (b : BodyState)
    (f : Bool) (s : StoreContent) :
    handleRequest "PUT" p ct b f (handleRequest "PUT" p ct b f s).1
      = handleRequest "PUT" p ct b f s := by
  by_cases hct : ct = jsonCT
  case neg =>
    have hcond : (("PUT" : String) = "POST" ∨ ("PUT" : String) = "PUT") ∧ ct ≠ jsonCT :=
      ⟨Or.inr rfl, hct⟩
    simp [handleRequest, hcond]
  case pos =>
    subst hct
    have hc : ¬((("PUT" : String) = "POST" ∨ ("PUT" : String) = "PUT") ∧ jsonCT ≠ jsonCT) := by
      simp
    rw [handleRequest_on_logical "PUT" p jsonCT b f s hc]
    generalize logicalColl s = l
    cases p with
    | root => rfl
    | script => rfl
    | items => rfl
    | other s2 => rfl
    | itemsId id =>
      cases b with
      | malformed => simp [handleRequest_put_malformed]
      | empty =>
        rcases hfind : findIndexById id l with _ | idx
        · simp [handleRequest_put_missing id .empty f l (by intro hx; cases hx) hfind]
        · simp [handleRequest_put_noname id idx .empty f l (by intro hx; cases hx) rfl hfind]
      | obj b2 =>
        rcases hname : b2.name with _ | nm
        · rcases hfind : findIndexById id l with _ | idx
          · simp [handleRequest_put_missing id (.obj b2) f l (by intro hx; cases hx) hfind]
          · simp [handleRequest_put_noname id idx (.obj b2) f l (by intro hx; cases hx)
              (by simpa [bodyName] using hname) hfind]
        · rcases hfind : findIndexById id l with _ | idx
          · simp [handleRequest_put_missing id (.obj b2) f l (by intro hx; cases hx) hfind]
          · obtain ⟨old, hget, hid⟩ := findIndexById_some l id idx hfind
            have hlt : idx < l.length := (List.get?_eq_some.mp hget).choose
            have h1 := handleRequest_put_found id idx (.obj b2) nm old f l
              (by simpa [bodyName] using hname) hfind hget
            rw [h1]
            have hfind2 := findIndexById_set l id idx
              ⟨old.id, nm, (bodyDescription (.obj b2)).getD ""⟩ hfind hid
            have hget2 := get?_set_self l idx
              ⟨old.id, nm, (bodyDescription (.obj b2)).getD ""⟩ hlt
            have h2 := handleRequest_put_found id idx (.obj b2) nm
              ⟨old.id, nm, (bodyDescription (.obj b2)).getD ""⟩ f
              (l.set idx ⟨old.id, nm, (bodyDescription (.obj b2)).getD ""⟩)
              (by simpa [bodyName] using hname) hfind2 hget2
            show handleRequest "PUT" (.itemsId id) jsonCT (.obj b2) f
              (.valid (l.set idx ⟨old.id, nm, (bodyDescription (.obj b2)).getD ""⟩)) = _
            rw [h2]
            simp [List.set_set]

/-- C10: CREATE ignores any client-supplied id and any extra fields in the
request body: the created Item is exactly the record whose id is the
server-assigned next id, whose name is the string the request supplied, and
whose description is the supplied description string or "", independently
of those ignored fields. -/
theorem create_ignores_client_fields (l : List Item) (nm : String)
    (ds : Option String) (cid : Option Int) (extra : List (String × String)) (f : Bool) :
    handleRequest "POST" .items jsonCT (.obj ⟨cid, some nm, ds, extra⟩) f (.valid l)
      = (.valid (l ++ [⟨getNextId l, nm, ds.getD ""⟩]),
         ⟨201, .item ⟨getNextId l, nm, ds.getD ""⟩⟩) := rfl

end CrudApp
